import Mathlib

/-!
Verification development for the runtime-upgrade orchestrator of
`lal-lambda-tools`.

The definitions below are a shallow embedding of the TypeScript source:

* `src/helpers/awsUtils.ts` — `getRuntimeFamily`, `isFamily`,
  `validateAndGetRuntimeFamily`, `getLastInvocation`, `waitForUpdate`;
* `src/commands/upgrade.ts` — the planner (diff flags, partition into
  to-upgrade / already-satisfied), the candidate sort by last invocation,
  and the sequential apply engine (`upgradeRuntimes`).

Strings are modelled through their character lists so that every operation
is a structurally recursive, executable function.  External effects (the
AWS CLI calls, the log query, the clock) are modelled as explicit inputs:
a poll stream `Nat → PollOutcome` for `waitForUpdate`, a per-item
environment for the apply engine, and a query result for
`getLastInvocation`.  Elapsed time in the poll loop is idealised as the
sum of the sleep intervals (the `fuel` argument bounds the iteration
count; it is chosen large enough that, whenever the sleep intervals are
positive, the loop always exits through one of the source's `return`
statements before the fuel runs out, and a fuel exhaustion — which in the
source corresponds to wall-clock time passing the deadline — yields the
same timeout result as the source's loop exit).
-/

namespace LalLambda

/-- ASCII lowercasing of a string, character by character; models
`String.prototype.toLowerCase` on the ASCII runtime identifiers this tool
manipulates. -/
def lowerStr (s : String) : String := ⟨s.data.map Char.toLower⟩

/-- Boolean string-prefix check over character lists (models
`String.prototype.startsWith`). -/
def strStartsWith (s pre : String) : Bool := pre.data.isPrefixOf s.data

/-- Boolean string-suffix check over character lists (models
`String.prototype.endsWith`). -/
def strEndsWith (s suf : String) : Bool := suf.data.isSuffixOf s.data

/-- Drop the first `n` characters (models `String.prototype.slice(n)` on
ASCII strings). -/
def strDrop (s : String) (n : Nat) : String := ⟨s.data.drop n⟩

/-- Drop the last `n` characters (models `slice(0, -n)`). -/
def strDropRight (s : String) (n : Nat) : String := ⟨s.data.take (s.data.length - n)⟩

/-- Longest prefix of characters satisfying `p` (models `s.split(re)[0]`
for a single-character separator class `re`). -/
def strTakeWhile (s : String) (p : Char → Bool) : String := ⟨s.data.takeWhile p⟩

/-- Every character satisfies `p`. -/
def strAll (s : String) (p : Char → Bool) : Bool := s.data.all p

/-- Character class of the separator regex (a digit, a dot or a hyphen)
used by `getRuntimeFamily` (awsUtils.ts:55). -/
def isFamilySep (c : Char) : Bool := c.isDigit || c == '.' || c == '-'

/-- Fallback family: prefix of the (lowercased) runtime string before the
first digit, dot or hyphen; the whole string when that prefix is empty.
Models the split-at-separator fallback `s.split(re)[0] || s`
(awsUtils.ts:55). -/
def fallbackFamily (s : String) : String :=
  let p := strTakeWhile s (fun c => !isFamilySep c)
  if p = "" then s else p

/-- Embedding of `getRuntimeFamily` (awsUtils.ts:49-56).  The argument is
`Option String` because the source accepts `string | null | undefined`;
the source's falsiness test `!rt` also sends the empty string to `null`. -/
def getRuntimeFamily (rt : Option String) : Option String :=
  match rt with
  | none => none
  | some r =>
    if r = "" then none
    else
      let s := lowerStr r
      if strStartsWith s "python" then some "python"
      else if strStartsWith s "nodejs" then some "nodejs"
      else some (fallbackFamily s)

/-- Embedding of `isFamily` (awsUtils.ts:58-61). -/
def isFamily (runtime : Option String) (family : String) : Bool :=
  getRuntimeFamily runtime == some family

/-- Test for the anchored python pattern (literal "python3." followed by
one or more digits, awsUtils.ts:66). -/
def pythonPatternTest (s : String) : Bool :=
  strStartsWith s "python3." && !(strDrop s 8 == "") && strAll (strDrop s 8) Char.isDigit

/-- Test for the anchored nodejs pattern (literal "nodejs", one or more
digits, then literal ".x", awsUtils.ts:67). -/
def nodejsPatternTest (s : String) : Bool :=
  strStartsWith s "nodejs" && strEndsWith s ".x" &&
    (let d := strDropRight (strDrop s 6) 2
     !(d == "") && strAll d Char.isDigit)

/-- Error taxonomy of `validateAndGetRuntimeFamily`: the source throws
`Error` objects distinguished by their message text; the spec names the
two failure modes `UnsupportedRuntimeFamily` and `InvalidRuntimeFormat`. -/
inductive RuntimeValidationError where
  | unsupportedRuntimeFamily (message : String)
  | invalidRuntimeFormat (message : String)
deriving DecidableEq, Repr

/-- Message of the unsupported-family error (awsUtils.ts:73). -/
def unsupportedMsg (t : String) : String :=
  "Unsupported runtime \x27" ++ t ++ "\x27. Only python and nodejs are supported."

/-- Message of the invalid-format error (awsUtils.ts:76). -/
def invalidFormatMsg (t fam ex : String) : String :=
  "Invalid target runtime \x27" ++ t ++ "\x27. Expected " ++ fam ++ " format like \x27" ++ ex ++ "\x27"

/-- One validation rule: family name, exact-format pattern, canonical
example (awsUtils.ts:65-68). -/
structure RuntimeRule where
  family : String
  patternTest : String → Bool
  canonicalExample : String

/-- The rule table of `validateAndGetRuntimeFamily` (awsUtils.ts:65-68). -/
def runtimeRules : List RuntimeRule :=
  [⟨"python", pythonPatternTest, "python3.12"⟩,
   ⟨"nodejs", nodejsPatternTest, "nodejs20.x"⟩]

/-- Coarse family with the source's `|| "unknown"` default
(awsUtils.ts:70). -/
def coarseFam (s : String) : String := (getRuntimeFamily (some s)).getD "unknown"

/-- Embedding of `validateAndGetRuntimeFamily` (awsUtils.ts:64-79);
`throw` is modelled by `Except.error`. -/
def validateAndGetRuntimeFamily (targetRuntime : String) :
    Except RuntimeValidationError String :=
  let family := coarseFam targetRuntime
  match runtimeRules.find? (fun r => r.family == family) with
  | none => .error (.unsupportedRuntimeFamily (unsupportedMsg targetRuntime))
  | some rule =>
    if rule.patternTest targetRuntime then .ok family
    else .error (.invalidRuntimeFormat (invalidFormatMsg targetRuntime rule.family rule.canonicalExample))

instance : DecidableEq (Except RuntimeValidationError String) := fun x y =>
  match x, y with
  | .ok a, .ok b => if h : a = b then .isTrue (by simp [h]) else .isFalse (by simp [h])
  | .error a, .error b => if h : a = b then .isTrue (by simp [h]) else .isFalse (by simp [h])
  | .ok _, .error _ => .isFalse (by simp)
  | .error _, .ok _ => .isFalse (by simp)

/-! ## Last-invocation lookup (awsUtils.ts:26-46) -/

/-- Outcome of the log-query in `getLastInvocation`: either the AWS CLI
call threw (`err`), or it returned a parsed result whose optional chain
`result.logStreams?.[0]?.lastEventTimestamp` yields an optional number. -/
inductive LogQueryResult where
  | err (msg : String)
  | ok (lastEventTimestamp : Option Int)

/-- Return value of `getLastInvocation`: a display string and an optional
timestamp. -/
structure LastInvocation where
  display : String
  ts : Option Int
deriving DecidableEq, Repr

/-- Embedding of `getLastInvocation` (awsUtils.ts:26-46).  `fmt` stands
for the external `formatDistanceToNow` library call; the whole body of the
source is wrapped in try/catch, modelled by the `err` branch.  The
source's falsiness test on the timestamp sends `0` to the "never" branch;
the later `Number(x) || null` coercion is the identity on the remaining
nonzero integers. -/
def getLastInvocation (fmt : Int → String) (q : LogQueryResult) : LastInvocation :=
  match q with
  | .err _ => ⟨"unknown", none⟩
  | .ok lastEventTimestamp =>
    match lastEventTimestamp with
    | none => ⟨"never", none⟩
    | some t => if t = 0 then ⟨"never", none⟩ else ⟨fmt t, some t⟩

/-- The concurrent fan-out of lookups in the Inventory Collector
(upgrade.ts:311-317): every candidate name is paired with its (totally
computed) lookup result, so the join never fails. -/
def collectInvocations (fmt : Int → String) (q : String → LogQueryResult)
    (names : List String) : List (String × LastInvocation) :=
  names.map (fun n => (n, getLastInvocation fmt (q n)))

/-! ## Poll loop `waitForUpdate` (awsUtils.ts:82-106) -/

/-- Parsed `get-function-configuration` response fields consumed by the
poll loop. -/
structure FnConfig where
  lastUpdateStatus : Option String
  lastUpdateStatusReason : Option String
deriving DecidableEq, Repr

/-- One poll of the configuration: the CLI call either returns a config
or throws. -/
inductive PollOutcome where
  | ok (cfg : FnConfig)
  | err (msg : String)

/-- Return value of `waitForUpdate`. -/
structure WaitResult where
  status : String
  reason : Option String
deriving DecidableEq, Repr

/-- Status extraction with the source's falsy-default
`cfg.LastUpdateStatus || "Unknown"` (awsUtils.ts:96). -/
def statusOf (cfg : FnConfig) : String :=
  match cfg.lastUpdateStatus with
  | none => "Unknown"
  | some s => if s = "" then "Unknown" else s

/-- Backoff step `Math.min(Math.floor(intervalMs * 1.5), maxIntervalMs)`
(awsUtils.ts:103); on naturals the floor of multiplication by 1.5 is
division of the triple by two. -/
def nextIntervalMs (intervalMs maxIntervalMs : Nat) : Nat :=
  min (intervalMs * 3 / 2) maxIntervalMs

/-- The timeout return value, whose reason rounds the budget to seconds
half-up, as `Math.round(timeoutMs / 1000)` does (awsUtils.ts:105). -/
def timeoutResult (timeoutMs : Nat) : WaitResult :=
  ⟨"Timeout", some ("Waited " ++ toString ((timeoutMs + 500) / 1000) ++ "s")⟩

/-- Loop body of `waitForUpdate` (awsUtils.ts:92-104).  `idx` counts the
polls, `elapsed` is the idealised clock (the sum of the sleeps performed
so far), `intervalMs` the current sleep length.  The `fuel` bounds the
iteration count; exhausting it corresponds to wall-clock time passing the
deadline, hence yields the same timeout result as the loop's normal
exit. -/
def waitForUpdateGo (poll : Nat → PollOutcome) (timeoutMs maxIntervalMs : Nat) :
    Nat → Nat → Nat → Nat → WaitResult
  | 0, _, _, _ => timeoutResult timeoutMs
  | fuel + 1, idx, elapsed, intervalMs =>
    if elapsed < timeoutMs then
      match poll idx with
      | .err msg => ⟨"Failed", some msg⟩
      | .ok cfg =>
        let status := statusOf cfg
        if status = "Successful" then ⟨"Successful", none⟩
        else if status = "Failed" then ⟨"Failed", cfg.lastUpdateStatusReason⟩
        else
          waitForUpdateGo poll timeoutMs maxIntervalMs fuel (idx + 1)
            (elapsed + intervalMs) (nextIntervalMs intervalMs maxIntervalMs)
    else timeoutResult timeoutMs

/-- Embedding of `waitForUpdate` (awsUtils.ts:82-106) with its default
parameters `timeoutMs = 60000`, `initialIntervalMs = 1000`,
`maxIntervalMs = 5000` supplied by the callers in scope.  A fuel of
`timeoutMs + 1` suffices for any positive interval, since every iteration
advances the idealised clock by at least one millisecond. -/
def waitForUpdate (poll : Nat → PollOutcome)
    (timeoutMs initialIntervalMs maxIntervalMs : Nat) : WaitResult :=
  waitForUpdateGo poll timeoutMs maxIntervalMs (timeoutMs + 1) 0 0 initialIntervalMs

/-- The sleep-interval sequence of the poll loop: starts at the initial
interval and advances by `nextIntervalMs` (awsUtils.ts:91,103). -/
def intervalSeq (initialIntervalMs maxIntervalMs : Nat) : Nat → Nat
  | 0 => initialIntervalMs
  | n + 1 => nextIntervalMs (intervalSeq initialIntervalMs maxIntervalMs n) maxIntervalMs

/-! ## Inventory sort by last invocation (upgrade.ts:319-324) -/

/-- A function record from the bulk listing: name, runtime, layer ARNs
(upgrade.ts:295). -/
structure LambdaFn where
  Name : String
  Runtime : Option String
  Layers : List String
deriving DecidableEq, Repr

/-- Sort key used by the comparator (upgrade.ts:321-323): the record's
timestamp with every absence coerced to `0` by the chain of falsy
defaults. -/
def invKey (inv : String → Option Int) (n : String) : Int := (inv n).getD 0

/-- Stable descending insertion: `x` is placed before the first element
whose key is at most `key x`, so elements with equal keys keep their
original relative order. -/
def insertByKeyDesc {α : Type} (key : α → Int) (x : α) : List α → List α
  | [] => [x]
  | y :: ys => if key y ≤ key x then x :: y :: ys else y :: insertByKeyDesc key x ys

/-- Stable sort descending by key: the unique stable order produced by
the comparator subtraction of keys, which is what the source's
(spec-mandated stable) `Array.prototype.sort` computes
(upgrade.ts:320-324). -/
def sortByKeyDesc {α : Type} (key : α → Int) : List α → List α
  | [] => []
  | x :: xs => insertByKeyDesc key x (sortByKeyDesc key xs)

/-- The candidate sort of the Inventory Collector (upgrade.ts:319-324). -/
def sortCandidates (inv : String → Option Int) (cands : List LambdaFn) : List LambdaFn :=
  sortByKeyDesc (fun f => invKey inv f.Name) cands

/-! ## Planner (upgrade.ts:384-426) -/

/-- Entry of `infoByName` (upgrade.ts:301-306). -/
structure FnInfo where
  runtime : String
  layers : List String
deriving DecidableEq, Repr

/-- JavaScript truthiness of an optional string: absent and empty strings
are falsy (used for `options.layerArn` at upgrade.ts:398 and 458). -/
def optTruthy (o : Option String) : Bool :=
  match o with
  | none => false
  | some s => !(s == "")

/-- One entry of the `planned` array (upgrade.ts:385-410). -/
structure PlanItem where
  name : String
  fromRuntime : String
  toRuntime : String
  fromLayers : List String
  toLayers : Option (List String)
  changeRuntime : Bool
  changeLayers : Bool
deriving DecidableEq, Repr

/-- Construction of one plan item (upgrade.ts:395-410): the runtime flag
is a case-insensitive comparison, the layer flag a deep order-sensitive
comparison against the single-element desired list, computed only when a
replacement layer was requested. -/
def mkPlanItem (targetRuntime : String) (layerArn : Option String)
    (n : String) (info : Option FnInfo) : PlanItem :=
  let info := info.getD ⟨"unknown", []⟩
  let changeRuntime := !(lowerStr info.runtime == lowerStr targetRuntime)
  let desiredLayers : Option (List String) :=
    if optTruthy layerArn then some [layerArn.getD ""] else none
  let changeLayers :=
    match desiredLayers with
    | some d => !(info.layers == d)
    | none => false
  { name := n, fromRuntime := info.runtime, toRuntime := targetRuntime,
    fromLayers := info.layers, toLayers := desiredLayers,
    changeRuntime := changeRuntime, changeLayers := changeLayers }

/-- The `planned` array over the selected names (upgrade.ts:395-410). -/
def mkPlanned (targetRuntime : String) (layerArn : Option String)
    (infoByName : String → Option FnInfo) (selectedNames : List String) : List PlanItem :=
  selectedNames.map (fun n => mkPlanItem targetRuntime layerArn n (infoByName n))

/-- The to-upgrade partition (upgrade.ts:412). -/
def toUpgradeOf (planned : List PlanItem) : List PlanItem :=
  planned.filter (fun p => p.changeRuntime || p.changeLayers)

/-- The already-satisfied partition (upgrade.ts:413). -/
def alreadyOkOf (planned : List PlanItem) : List PlanItem :=
  planned.filter (fun p => !p.changeRuntime && !p.changeLayers)

/-! ## Apply engine (upgrade.ts:452-483) -/

/-- Outcome of the single `update-function-configuration` submission for
one item: a parsed acknowledgment, or a thrown error. -/
inductive SubmitOutcome where
  | ok (functionName : String) (runtime : String)
  | err (msg : String)

/-- External behaviour offered to one plan item: its submission outcome
and the poll stream its `waitForUpdate` would observe. -/
structure ItemEnv where
  submit : SubmitOutcome
  poll : Nat → PollOutcome

/-- The argument list of the single update call built for one item
(upgrade.ts:456-459): the runtime flag is added exactly when
`changeRuntime` is set, the layers flag exactly when a replacement layer
ARN was provided on the command line. -/
def updateCmdParts (targetRuntime : String) (layerArn : Option String)
    (p : PlanItem) : List String :=
  ["aws lambda update-function-configuration --function-name " ++ p.name]
    ++ (if p.changeRuntime then ["--runtime " ++ targetRuntime] else [])
    ++ (if optTruthy layerArn then ["--layers " ++ layerArn.getD ""] else [])

/-- Observable execution of one plan item: the command submitted, whether
polling happened, the terminal outcome, and the entry pushed onto
`results` (upgrade.ts:455-482). -/
structure ItemExec where
  name : String
  cmdParts : List String
  polled : Bool
  status : String
  reason : Option String
  ok : Bool
  message : Option String
deriving DecidableEq, Repr

/-- Execution of one plan item (upgrade.ts:455-482): submit once; on a
thrown submission the item is recorded as failed with the error message
and no polling happens; otherwise poll to a terminal outcome with
`waitForUpdate` and its default parameters. -/
def applyItem (targetRuntime : String) (layerArn : Option String)
    (env : ItemEnv) (p : PlanItem) : ItemExec :=
  let parts := updateCmdParts targetRuntime layerArn p
  match env.submit with
  | .err msg =>
    { name := p.name, cmdParts := parts, polled := false,
      status := "Failed", reason := some msg, ok := false, message := some msg }
  | .ok _ _ =>
    let wait := waitForUpdate env.poll 60000 1000 5000
    { name := p.name, cmdParts := parts, polled := true,
      status := wait.status, reason := wait.reason,
      ok := wait.status == "Successful", message := none }

/-- Sequential execution of the to-upgrade list (the for-loop at
upgrade.ts:455): each item is fully resolved before the next one starts,
and every item contributes exactly one record. -/
def applyEngine (targetRuntime : String) (layerArn : Option String)
    (env : Nat → ItemEnv) : List PlanItem → Nat → List ItemExec
  | [], _ => []
  | p :: ps, idx =>
    applyItem targetRuntime layerArn (env idx) p ::
      applyEngine targetRuntime layerArn env ps (idx + 1)

/-- Control flow of `upgradeRuntimes` after selection (upgrade.ts:412-483):
an empty to-upgrade list returns early with no mutation (before the
confirmation prompt); a declined confirmation aborts; otherwise the apply
engine runs over the to-upgrade list. -/
inductive UpgradeOutcome where
  | nothingToDo (alreadyOk : List PlanItem)
  | aborted (alreadyOk : List PlanItem) (toUpgrade : List PlanItem)
  | applied (alreadyOk : List PlanItem) (execs : List ItemExec)
deriving Repr

/-- The planner-plus-apply tail of `upgradeRuntimes` (upgrade.ts:384-483)
as a pure function of the selection, the info map, the confirmation
answer and the per-item environments. -/
def upgradeTail (targetRuntime : String) (layerArn : Option String)
    (infoByName : String → Option FnInfo) (selectedNames : List String)
    (confirm : Bool) (env : Nat → ItemEnv) : UpgradeOutcome :=
  let planned := mkPlanned targetRuntime layerArn infoByName selectedNames
  let toUp := toUpgradeOf planned
  let ok := alreadyOkOf planned
  if toUp.isEmpty then .nothingToDo ok
  else if !confirm then .aborted ok toUp
  else .applied ok (applyEngine targetRuntime layerArn env toUp 0)

/-- Number of configuration-update calls issued by an outcome: one per
executed item, none on the early exits. -/
def updateCallCount : UpgradeOutcome → Nat
  | .nothingToDo _ => 0
  | .aborted _ _ => 0
  | .applied _ execs => execs.length

/-- Names of the items actually submitted to the Apply Engine. -/
def submittedNamesOf : UpgradeOutcome → List String
  | .nothingToDo _ => []
  | .aborted _ _ => []
  | .applied _ execs => execs.map (fun e => e.name)

/-- A poll observation that is neither a thrown call nor a terminal
update status: the loop keeps going on these. -/
def nonTerminalPoll : PollOutcome → Bool
  | .err _ => false
  | .ok cfg => !(statusOf cfg == "Successful") && !(statusOf cfg == "Failed")

/-! ## Concrete instances used by the witnesses and scenarios -/

/-- A poll stream that always reports an in-progress update. -/
def pollInProgress : Nat → PollOutcome := fun _ => .ok ⟨some "InProgress", none⟩

/-- A poll stream whose first observation is already terminal-successful. -/
def pollSuccessful : Nat → PollOutcome := fun _ => .ok ⟨some "Successful", none⟩

/-- An environment whose submission call throws. -/
def envSubmitErr (msg : String) : ItemEnv := ⟨.err msg, pollInProgress⟩

/-- An environment whose submissions are acknowledged and complete. -/
def envOk : Nat → ItemEnv := fun _ => ⟨.ok "A" "python3.12", pollSuccessful⟩

/-- A concrete plan item with a runtime change only. -/
def planItemA : PlanItem :=
  { name := "fnA", fromRuntime := "python3.11", toRuntime := "python3.12",
    fromLayers := ["L1"], toLayers := some ["L1"],
    changeRuntime := true, changeLayers := false }

/-- The three-item scenario's plan items: a runtime change on each of
"A", "B", "C". -/
def itemA : PlanItem :=
  { name := "A", fromRuntime := "python3.9", toRuntime := "python3.12",
    fromLayers := [], toLayers := none, changeRuntime := true, changeLayers := false }

def itemB : PlanItem :=
  { name := "B", fromRuntime := "python3.9", toRuntime := "python3.12",
    fromLayers := [], toLayers := none, changeRuntime := true, changeLayers := false }

def itemC : PlanItem :=
  { name := "C", fromRuntime := "python3.9", toRuntime := "python3.12",
    fromLayers := [], toLayers := none, changeRuntime := true, changeLayers := false }

/-- The three-item scenario's external world: item 1's submission is
acknowledged and its update completes, item 2's submission throws, item
3's submission is acknowledged but its update never reaches a terminal
status. -/
def envScenario : Nat → ItemEnv := fun i =>
  if i = 0 then ⟨.ok "A" "python3.12", pollSuccessful⟩
  else if i = 1 then ⟨.err "submission rejected", pollInProgress⟩
  else ⟨.ok "C" "python3.12", pollInProgress⟩

/-- The info map for the concrete partition instance: one function "A"
already on the target runtime with no layers. -/
def infoW : String → Option FnInfo :=
  fun n => if n = "A" then some ⟨"python3.12", []⟩ else none

/-- A concrete last-invocation map: "A" never invoked, "B" and "B2" tied
at 5, "C" at 9. -/
def invW2 : String → Option Int :=
  fun n => if n = "B" then some 5 else if n = "B2" then some 5
    else if n = "C" then some 9 else none

/-- A concrete candidate list in API-response order. -/
def candsW : List LambdaFn :=
  [⟨"A", some "python3.9", []⟩, ⟨"B", some "python3.10", []⟩,
   ⟨"B2", some "python3.10", []⟩, ⟨"C", some "python3.11", []⟩]

/-! ## Helper lemmas -/

theorem strAppend_assoc (a b c : String) : (a ++ b) ++ c = a ++ (b ++ c) := by
  apply String.ext
  simp [String.data_append]

/-- Branch normal form of the validator over the concrete rule table. -/
theorem validate_eq (s : String) :
    validateAndGetRuntimeFamily s =
      if coarseFam s = "python" then
        (if pythonPatternTest s then .ok "python"
         else .error (.invalidRuntimeFormat (invalidFormatMsg s "python" "python3.12")))
      else if coarseFam s = "nodejs" then
        (if nodejsPatternTest s then .ok "nodejs"
         else .error (.invalidRuntimeFormat (invalidFormatMsg s "nodejs" "nodejs20.x")))
      else .error (.unsupportedRuntimeFamily (unsupportedMsg s)) := by
  by_cases h1 : coarseFam s = "python"
  · simp [validateAndGetRuntimeFamily, runtimeRules, List.find?, h1]
  · have b1 : ("python" == coarseFam s) = false := beq_eq_false_iff_ne.mpr (Ne.symm h1)
    by_cases h2 : coarseFam s = "nodejs"
    · simp [validateAndGetRuntimeFamily, runtimeRules, List.find?, b1, h1, h2]
    · have b2 : ("nodejs" == coarseFam s) = false := beq_eq_false_iff_ne.mpr (Ne.symm h2)
      simp [validateAndGetRuntimeFamily, runtimeRules, List.find?, b1, b2, h1, h2]

/-! ## Claims -/

/-- C1: the validator returns the family of a target runtime string
exactly when the coarse family derived from the string has a rule whose
exact-format pattern the string matches; it fails with
`UnsupportedRuntimeFamily` when no rule's family matches the coarse
prefix, and with `InvalidRuntimeFormat` (whose message contains the
offending string and the rule's canonical example) when the family
matches but the pattern does not.  In particular it accepts "python3.12"
and "nodejs20.x", rejects "python3.x" with the format error, and rejects
"java11" with the unsupported-family error. -/
theorem C1_target_runtime_validator :
    (∀ s f, validateAndGetRuntimeFamily s = .ok f ↔
        ((coarseFam s = "python" ∧ pythonPatternTest s = true ∧ f = "python") ∨
         (coarseFam s = "nodejs" ∧ nodejsPatternTest s = true ∧ f = "nodejs"))) ∧
    (∀ s, coarseFam s ≠ "python" → coarseFam s ≠ "nodejs" →
        validateAndGetRuntimeFamily s =
          .error (.unsupportedRuntimeFamily (unsupportedMsg s))) ∧
    (∀ s, coarseFam s = "python" → pythonPatternTest s = false →
        validateAndGetRuntimeFamily s =
          .error (.invalidRuntimeFormat (invalidFormatMsg s "python" "python3.12"))) ∧
    (∀ s, coarseFam s = "nodejs" → nodejsPatternTest s = false →
        validateAndGetRuntimeFamily s =
          .error (.invalidRuntimeFormat (invalidFormatMsg s "nodejs" "nodejs20.x"))) ∧
    (∀ s fam ex, ∃ a b c, invalidFormatMsg s fam ex = a ++ (s ++ (b ++ (ex ++ c)))) ∧
    validateAndGetRuntimeFamily "python3.12" = .ok "python" ∧
    validateAndGetRuntimeFamily "nodejs20.x" = .ok "nodejs" ∧
    validateAndGetRuntimeFamily "python3.x" =
      .error (.invalidRuntimeFormat (invalidFormatMsg "python3.x" "python" "python3.12")) ∧
    validateAndGetRuntimeFamily "java11" =
      .error (.unsupportedRuntimeFamily (unsupportedMsg "java11")) := by
  refine ⟨?_, ?_, ?_, ?_, ?_, by decide, by decide, by decide, by decide⟩
  · intro s f
    rw [validate_eq]
    by_cases h1 : coarseFam s = "python"
    · by_cases hp : pythonPatternTest s
      · simp [h1, hp]
        exact ⟨fun h => h.symm, fun h => h.symm⟩
      · simp [h1, hp]
    · by_cases h2 : coarseFam s = "nodejs"
      · by_cases hn : nodejsPatternTest s
        · simp [h1, h2, hn]
          exact ⟨fun h => h.symm, fun h => h.symm⟩
        · simp [h1, h2, hn]
      · simp [h1, h2]
  · intro s h1 h2
    rw [validate_eq]
    simp [h1, h2]
  · intro s h1 hp
    rw [validate_eq]
    simp [h1, hp]
  · intro s h2 hn
    rw [validate_eq]
    by_cases h1 : coarseFam s = "python"
    · rw [h1] at h2; exact absurd h2 (by decide)
    · simp [h1, h2, hn]
  · intro s fam ex
    refine ⟨"Invalid target runtime \x27",
      "\x27. Expected " ++ (fam ++ " format like \x27"), "\x27", ?_⟩
    simp [invalidFormatMsg, strAppend_assoc]

theorem C1_target_runtime_validator_witness :
    (coarseFam "java11" ≠ "python" ∧ coarseFam "java11" ≠ "nodejs" ∧
      validateAndGetRuntimeFamily "java11" =
        .error (.unsupportedRuntimeFamily (unsupportedMsg "java11"))) ∧
    (coarseFam "python3.x" = "python" ∧ pythonPatternTest "python3.x" = false ∧
      validateAndGetRuntimeFamily "python3.x" =
        .error (.invalidRuntimeFormat (invalidFormatMsg "python3.x" "python" "python3.12"))) :=
  ⟨⟨by decide, by decide,
      C1_target_runtime_validator.2.1 "java11" (by decide) (by decide)⟩,
   ⟨by decide, by decide,
      C1_target_runtime_validator.2.2.1 "python3.x" (by decide) (by decide)⟩⟩

/-- C3 counterexample: the family-derivation function applied to
"java11" returns the coarse prefix "java", which is neither a known
family nor the value "unsupported" claimed by the spec. -/
theorem C3_counterexample :
    getRuntimeFamily (some "java11") = some "java" ∧
    ¬("java" = "python" ∨ "java" = "nodejs" ∨ "java" = "unsupported") := by
  decide

/-- C3 (amended): for every input, `getRuntimeFamily` is a total function
(so it never throws); it returns `none` exactly on absent or empty
inputs, and otherwise one of the known families "python" / "nodejs" or
the lowercased coarse prefix before the first digit, dot or hyphen (the
whole lowercased string when that prefix is empty) — a fallback value
that is not the literal "unsupported". -/
theorem C3_family_total (rt : Option String) :
    (getRuntimeFamily rt = none ↔ rt = none ∨ rt = some "") ∧
    (∀ f, getRuntimeFamily rt = some f →
      f = "python" ∨ f = "nodejs" ∨
        (∃ s, rt = some s ∧ f = fallbackFamily (lowerStr s))) := by
  cases rt with
  | none => simp [getRuntimeFamily]
  | some r =>
    by_cases h0 : r = ""
    · simp [getRuntimeFamily, h0]
    · by_cases h1 : strStartsWith (lowerStr r) "python"
      · constructor
        · simp [getRuntimeFamily, h0, h1]
        · intro f hf; simp [getRuntimeFamily, h0, h1] at hf; exact Or.inl hf.symm
      · by_cases h2 : strStartsWith (lowerStr r) "nodejs"
        · constructor
          · simp [getRuntimeFamily, h0, h1, h2]
          · intro f hf; simp [getRuntimeFamily, h0, h1, h2] at hf
            exact Or.inr (Or.inl hf.symm)
        · constructor
          · simp [getRuntimeFamily, h0, h1, h2]
          · intro f hf; simp [getRuntimeFamily, h0, h1, h2] at hf
            exact Or.inr (Or.inr ⟨r, rfl, hf.symm⟩)

theorem C3_family_total_witness :
    getRuntimeFamily (some "java11") = some "java" ∧
    ("java" = "python" ∨ "java" = "nodejs" ∨
      (∃ s, (some "java11" : Option String) = some s ∧
        "java" = fallbackFamily (lowerStr s))) :=
  ⟨by decide, (C3_family_total (some "java11")).2 "java" (by decide)⟩

/-- C7: the last-invocation lookup is total: a failed log query yields
display "unknown" with an absent timestamp instead of rejecting, a
successful query with no log stream or event yields the distinct display
"never" with an absent timestamp, and the batch join over all candidate
lookups always produces one (name, result) pair per candidate. -/
theorem C7_last_invocation_total :
    (∀ fmt msg, getLastInvocation fmt (.err msg) = ⟨"unknown", none⟩) ∧
    (∀ fmt, getLastInvocation fmt (.ok none) = ⟨"never", none⟩) ∧
    ("never" : String) ≠ "unknown" ∧
    (∀ fmt q names, (collectInvocations fmt q names).map Prod.fst = names) := by
  refine ⟨fun _ _ => rfl, fun _ => rfl, by decide, fun fmt q names => ?_⟩
  have hcomp : (Prod.fst ∘ fun n : String => (n, getLastInvocation fmt (q n))) = id :=
    funext fun n => rfl
  simp [collectInvocations, List.map_map, hcomp]

theorem waitGo_nonterminal_timeout (poll : Nat → PollOutcome)
    (h : ∀ k, nonTerminalPoll (poll k) = true) (t maxI : Nat) :
    ∀ fuel idx e i, waitForUpdateGo poll t maxI fuel idx e i = timeoutResult t := by
  intro fuel
  induction fuel with
  | zero => intro idx e i; rfl
  | succ m ih =>
    intro idx e i
    by_cases he : e < t
    · simp only [waitForUpdateGo, if_pos he]
      cases hp : poll idx with
      | err msg =>
        have hk := h idx
        rw [hp] at hk
        simp [nonTerminalPoll] at hk
      | ok cfg =>
        have hk := h idx
        rw [hp] at hk
        simp [nonTerminalPoll] at hk
        simp only [if_neg hk.1, if_neg hk.2]
        exact ih _ _ _
    · simp only [waitForUpdateGo, if_neg he]

/-- C9: with the default parameters the poll loop's sleep intervals start
at the 1000 ms base, each next interval is the floor of 1.5 times the
previous one capped at 5000 ms, so the sequence is nondecreasing and
never exceeds the cap; the per-item budget is 60000 ms, and when it
elapses with no terminal status observed the result is status "Timeout"
with a reason stating the elapsed seconds ("Waited 60s"). -/
theorem C9_backoff_and_timeout :
    intervalSeq 1000 5000 0 = 1000 ∧
    (∀ n, intervalSeq 1000 5000 (n + 1) = min (intervalSeq 1000 5000 n * 3 / 2) 5000) ∧
    (∀ n, intervalSeq 1000 5000 n ≤ intervalSeq 1000 5000 (n + 1)) ∧
    (∀ n, intervalSeq 1000 5000 n ≤ 5000) ∧
    (∀ poll : Nat → PollOutcome, (∀ k, nonTerminalPoll (poll k) = true) →
      waitForUpdate poll 60000 1000 5000 = ⟨"Timeout", some "Waited 60s"⟩) := by
  have hbound : ∀ n, intervalSeq 1000 5000 n ≤ 5000 := by
    intro n
    cases n with
    | zero => decide
    | succ m => exact Nat.min_le_right _ _
  have hgrow : ∀ i : Nat, i ≤ i * 3 / 2 := by
    intro i
    calc i = i * 2 / 2 := by omega
      _ ≤ i * 3 / 2 := Nat.div_le_div_right (by omega)
  refine ⟨rfl, fun n => rfl, fun n => ?_, hbound, fun poll h => ?_⟩
  · exact Nat.le_min.mpr ⟨hgrow _, hbound n⟩
  · have ht : timeoutResult 60000 = ⟨"Timeout", some "Waited 60s"⟩ := by decide
    rw [waitForUpdate, waitGo_nonterminal_timeout poll h 60000 5000, ht]

theorem C9_backoff_and_timeout_witness :
    (∀ k, nonTerminalPoll (pollInProgress k) = true) ∧
    waitForUpdate pollInProgress 60000 1000 5000 = ⟨"Timeout", some "Waited 60s"⟩ :=
  ⟨fun _ => rfl, C9_backoff_and_timeout.2.2.2.2 pollInProgress (fun _ => rfl)⟩

/-- C10: if a poll of the configuration throws, `waitForUpdate`
immediately returns status "Failed" with the exception message as the
reason — from any loop state with remaining budget, and in particular
from the first poll — without consulting any later poll and without
waiting out the remaining time budget, so a transient poll-query error is
reported as Failed rather than Timeout. -/
theorem C10_poll_error_immediate_failure (poll : Nat → PollOutcome)
    (t maxI fuel idx e i : Nat) (msg : String)
    (he : e < t) (hp : poll idx = .err msg) :
    waitForUpdateGo poll t maxI (fuel + 1) idx e i = ⟨"Failed", some msg⟩ ∧
    (∀ initI, poll 0 = .err msg → waitForUpdate poll t initI maxI = ⟨"Failed", some msg⟩) := by
  constructor
  · simp only [waitForUpdateGo, if_pos he, hp]
  · intro initI hp0
    have ht : 0 < t := Nat.lt_of_le_of_lt (Nat.zero_le e) he
    rw [waitForUpdate]
    simp only [waitForUpdateGo, if_pos ht, hp0]

theorem strAppend_ne (x y : String) (p : List Char) (c1 c2 : Char) (xs ys : List Char)
    (hx : x.data = p ++ c1 :: xs) (hy : y.data = p ++ c2 :: ys) (hc : c1 ≠ c2)
    (a b : String) : x ++ a ≠ y ++ b := by
  intro h
  have hd := congrArg String.data h
  rw [String.data_append, String.data_append, hx, hy,
    List.append_assoc, List.append_assoc] at hd
  have h2 := List.append_cancel_left hd
  injection h2 with h3 _
  exact hc h3

theorem runtimeArg_ne_base (t n : String) :
    "--runtime " ++ t ≠ "aws lambda update-function-configuration --function-name " ++ n :=
  strAppend_ne "--runtime " "aws lambda update-function-configuration --function-name "
    [] '-' 'a' "-runtime ".data
    "ws lambda update-function-configuration --function-name ".data
    (by decide) (by decide) (by decide) t n

theorem runtimeArg_ne_layersArg (t a : String) :
    "--runtime " ++ t ≠ "--layers " ++ a :=
  strAppend_ne "--runtime " "--layers " ['-', '-'] 'r' 'l'
    "untime ".data "ayers ".data
    (by decide) (by decide) (by decide) t a

theorem layersArg_ne_base (a n : String) :
    "--layers " ++ a ≠ "aws lambda update-function-configuration --function-name " ++ n :=
  strAppend_ne "--layers " "aws lambda update-function-configuration --function-name "
    [] '-' 'a' "-layers ".data
    "ws lambda update-function-configuration --function-name ".data
    (by decide) (by decide) (by decide) a n

theorem applyItem_name (target : String) (arn : Option String) (env : ItemEnv)
    (p : PlanItem) : (applyItem target arn env p).name = p.name := by
  cases h : env.submit <;> simp [applyItem, h]

theorem applyItem_cmdParts (target : String) (arn : Option String) (env : ItemEnv)
    (p : PlanItem) :
    (applyItem target arn env p).cmdParts = updateCmdParts target arn p := by
  cases h : env.submit <;> simp [applyItem, h]

theorem applyEngine_map_name (target : String) (arn : Option String) (env : Nat → ItemEnv) :
    ∀ (items : List PlanItem) (idx : Nat),
      (applyEngine target arn env items idx).map (fun e => e.name) =
        items.map (fun p => p.name) := by
  intro items
  induction items with
  | nil => intro idx; rfl
  | cons q qs ih =>
    intro idx
    simp [applyEngine, applyItem_name, ih]

theorem applyEngine_map_cmdParts (target : String) (arn : Option String)
    (env : Nat → ItemEnv) :
    ∀ (items : List PlanItem) (idx : Nat),
      (applyEngine target arn env items idx).map (fun e => e.cmdParts) =
        items.map (fun p => updateCmdParts target arn p) := by
  intro items
  induction items with
  | nil => intro idx; rfl
  | cons q qs ih =>
    intro idx
    simp [applyEngine, applyItem_cmdParts, ih]

/-- C2 counterexample: a plan item produced by the planner with
`changeRuntime = true` and `changeLayers = false` (the function already
carries exactly the desired layer) is placed in the to-upgrade plan, and
the single submission command built for it still carries the layers
argument even though `changeLayers` is false — refuting "the layers
argument is present iff changeLayers is true". -/
theorem C2_counterexample :
    (mkPlanItem "python3.12" (some "L1") "fnA" (some ⟨"python3.11", ["L1"]⟩)).changeRuntime
        = true ∧
    (mkPlanItem "python3.12" (some "L1") "fnA" (some ⟨"python3.11", ["L1"]⟩)).changeLayers
        = false ∧
    mkPlanItem "python3.12" (some "L1") "fnA" (some ⟨"python3.11", ["L1"]⟩) ∈
      toUpgradeOf [mkPlanItem "python3.12" (some "L1") "fnA" (some ⟨"python3.11", ["L1"]⟩)] ∧
    ("--layers " ++ "L1") ∈
      updateCmdParts "python3.12" (some "L1")
        (mkPlanItem "python3.12" (some "L1") "fnA" (some ⟨"python3.11", ["L1"]⟩)) := by
  decide

/-- C2 (amended): for every plan item the Apply Engine builds a single
configuration-update command whose runtime argument is present iff
`changeRuntime` is true and whose layers argument is present iff a
replacement layer ARN was provided on the command line (even when
`changeLayers` is false); every item is submitted with exactly that one
command, never two; and if the submission call throws, the item's result
is Failed with the error message captured and no polling is attempted for
it. -/
theorem C2_single_submission (p : PlanItem) (target : String) (arn : Option String)
    (env : ItemEnv) :
    (("--runtime " ++ target) ∈ updateCmdParts target arn p ↔ p.changeRuntime = true) ∧
    (("--layers " ++ arn.getD "") ∈ updateCmdParts target arn p ↔ optTruthy arn = true) ∧
    (∀ (envs : Nat → ItemEnv) (items : List PlanItem) (idx : Nat),
      (applyEngine target arn envs items idx).map (fun e => e.cmdParts) =
        items.map (fun q => updateCmdParts target arn q)) ∧
    (∀ msg, env.submit = .err msg →
      applyItem target arn env p =
        { name := p.name, cmdParts := updateCmdParts target arn p, polled := false,
          status := "Failed", reason := some msg, ok := false, message := some msg }) := by
  refine ⟨?_, ?_, fun envs items idx => applyEngine_map_cmdParts target arn envs items idx,
    fun msg hmsg => by simp [applyItem, hmsg]⟩
  · by_cases hcr : p.changeRuntime <;> by_cases hl : optTruthy arn <;>
      simp [updateCmdParts, hcr, hl, runtimeArg_ne_base target p.name,
        runtimeArg_ne_layersArg target (arn.getD "")]
  · by_cases hcr : p.changeRuntime <;> by_cases hl : optTruthy arn <;>
      simp [updateCmdParts, hcr, hl, layersArg_ne_base (arn.getD "") p.name,
        (runtimeArg_ne_layersArg target (arn.getD "")).symm]

theorem C2_single_submission_witness :
    (envSubmitErr "boom").submit = SubmitOutcome.err "boom" ∧
    applyItem "python3.12" (some "L1") (envSubmitErr "boom") planItemA =
      { name := planItemA.name,
        cmdParts := updateCmdParts "python3.12" (some "L1") planItemA,
        polled := false, status := "Failed", reason := some "boom",
        ok := false, message := some "boom" } :=
  ⟨rfl,
   (C2_single_submission planItemA "python3.12" (some "L1")
      (envSubmitErr "boom")).2.2.2 "boom" rfl⟩

theorem C10_poll_error_immediate_failure_witness :
    (0 : Nat) < 60000 ∧ (fun _ => PollOutcome.err "boom") 3 = PollOutcome.err "boom" ∧
    waitForUpdateGo (fun _ => PollOutcome.err "boom") 60000 5000 (10 + 1) 3 0 1000 =
      ⟨"Failed", some "boom"⟩ ∧
    waitForUpdate (fun _ => PollOutcome.err "boom") 60000 1000 5000 =
      ⟨"Failed", some "boom"⟩ :=
  ⟨by decide, rfl,
   (C10_poll_error_immediate_failure (fun _ => PollOutcome.err "boom")
      60000 5000 10 3 0 1000 "boom" (by decide) rfl).1,
   (C10_poll_error_immediate_failure (fun _ => PollOutcome.err "boom")
      60000 5000 10 3 0 1000 "boom" (by decide) rfl).2 1000 rfl⟩

/-- C4: the Apply Engine produces exactly one result per plan item, in
plan order, with each item fully resolved before the next starts (the
engine is a sequential fold); a Failed or Timeout outcome does not stop
the remaining items.  In the three-item scenario where the first item
succeeds, the second's submission throws and the third never reaches a
terminal status within the budget, the observed outcomes are
[Successful, Failed, Timeout] in that order. -/
theorem C4_one_result_per_item :
    (∀ (target : String) (arn : Option String) (env : Nat → ItemEnv)
        (items : List PlanItem) (idx : Nat),
      (applyEngine target arn env items idx).map (fun e => e.name) =
        items.map (fun p => p.name)) ∧
    (applyEngine "python3.12" none envScenario [itemA, itemB, itemC] 0).map
        (fun e => e.status) = ["Successful", "Failed", "Timeout"] ∧
    (applyEngine "python3.12" none envScenario [itemA, itemB, itemC] 0).map
        (fun e => e.name) = ["A", "B", "C"] :=
  ⟨fun target arn env items idx => applyEngine_map_name target arn env items idx,
   by decide, by decide⟩

/-- C5: the planner partitions the selected items so that an item enters
the to-upgrade set exactly when one of its change flags is true and the
already-satisfied set exactly when both are false; no item is in both;
only to-upgrade items are ever submitted to the Apply Engine; and when
the to-upgrade set is empty the command terminates through the
nothing-to-do exit with zero update calls issued. -/
theorem C5_partition (target : String) (arn : Option String)
    (infoByName : String → Option FnInfo) (selected : List String)
    (confirm : Bool) (env : Nat → ItemEnv) :
    (∀ p, p ∈ toUpgradeOf (mkPlanned target arn infoByName selected) ↔
        p ∈ mkPlanned target arn infoByName selected ∧
          (p.changeRuntime = true ∨ p.changeLayers = true)) ∧
    (∀ p, p ∈ alreadyOkOf (mkPlanned target arn infoByName selected) ↔
        p ∈ mkPlanned target arn infoByName selected ∧
          p.changeRuntime = false ∧ p.changeLayers = false) ∧
    (∀ p, p ∈ toUpgradeOf (mkPlanned target arn infoByName selected) →
        p ∉ alreadyOkOf (mkPlanned target arn infoByName selected)) ∧
    submittedNamesOf (upgradeTail target arn infoByName selected confirm env) ⊆
      (toUpgradeOf (mkPlanned target arn infoByName selected)).map (fun p => p.name) ∧
    (toUpgradeOf (mkPlanned target arn infoByName selected) = [] →
      upgradeTail target arn infoByName selected confirm env =
        .nothingToDo (alreadyOkOf (mkPlanned target arn infoByName selected)) ∧
      updateCallCount (upgradeTail target arn infoByName selected confirm env) = 0) := by
  refine ⟨?_, ?_, ?_, ?_, ?_⟩
  · intro p
    simp [toUpgradeOf, List.mem_filter]
  · intro p
    simp [alreadyOkOf, List.mem_filter]
  · intro p hp hq
    simp [toUpgradeOf, List.mem_filter] at hp
    simp [alreadyOkOf, List.mem_filter] at hq
    rcases hp.2 with h | h <;> simp [h] at hq
  · by_cases he : (toUpgradeOf (mkPlanned target arn infoByName selected)).isEmpty
    · simp [upgradeTail, he, submittedNamesOf]
    · by_cases hc : confirm
      · simp [upgradeTail, he, hc, submittedNamesOf, applyEngine_map_name]
      · simp [upgradeTail, he, hc, submittedNamesOf]
  · intro h
    have he : (toUpgradeOf (mkPlanned target arn infoByName selected)).isEmpty = true := by
      rw [h]; rfl
    constructor <;> simp [upgradeTail, he, updateCallCount]

theorem C5_partition_witness :
    toUpgradeOf (mkPlanned "python3.12" none infoW ["A"]) = [] ∧
    (upgradeTail "python3.12" none infoW ["A"] true envOk =
        .nothingToDo (alreadyOkOf (mkPlanned "python3.12" none infoW ["A"])) ∧
      updateCallCount (upgradeTail "python3.12" none infoW ["A"] true envOk) = 0) :=
  ⟨by decide,
   (C5_partition "python3.12" none infoW ["A"] true envOk).2.2.2.2 (by decide)⟩

/-- C6: for every selected record the planner computes `changeRuntime` as
case-insensitive inequality of current and target runtimes and, when a
replacement layer was requested, `changeLayers` as order-sensitive deep
inequality between the current layer list and the single-element desired
list; when no layer replacement was requested `changeLayers` is false and
`toLayers` is absent.  Concretely, with desired layer "L1" and matching
runtime, a record on ["L1"] is classified already-satisfied while a
record on ["L2"] is classified to-upgrade with `changeLayers = true` and
`changeRuntime = false`, and a record whose runtime differs from the
target only by case has `changeRuntime = false`. -/
theorem C6_plan_diffing :
    (∀ (target n : String) (info : FnInfo) (a : String), a ≠ "" →
        (mkPlanItem target (some a) n (some info)).changeLayers
            = !(info.layers == [a]) ∧
        (mkPlanItem target (some a) n (some info)).toLayers = some [a]) ∧
    (∀ (target n : String) (info : FnInfo),
        (mkPlanItem target none n (some info)).changeLayers = false ∧
        (mkPlanItem target none n (some info)).toLayers = none) ∧
    (∀ (target n : String) (arn : Option String) (info : FnInfo),
        ((mkPlanItem target arn n (some info)).changeRuntime = false ↔
          lowerStr info.runtime = lowerStr target)) ∧
    ((mkPlanItem "python3.12" (some "L1") "A" (some ⟨"python3.12", ["L1"]⟩)) ∈
        alreadyOkOf
          [mkPlanItem "python3.12" (some "L1") "A" (some ⟨"python3.12", ["L1"]⟩),
           mkPlanItem "python3.12" (some "L1") "B" (some ⟨"python3.12", ["L2"]⟩)] ∧
      (mkPlanItem "python3.12" (some "L1") "B" (some ⟨"python3.12", ["L2"]⟩)) ∈
        toUpgradeOf
          [mkPlanItem "python3.12" (some "L1") "A" (some ⟨"python3.12", ["L1"]⟩),
           mkPlanItem "python3.12" (some "L1") "B" (some ⟨"python3.12", ["L2"]⟩)] ∧
      (mkPlanItem "python3.12" (some "L1") "B"
          (some ⟨"python3.12", ["L2"]⟩)).changeLayers = true ∧
      (mkPlanItem "python3.12" (some "L1") "B"
          (some ⟨"python3.12", ["L2"]⟩)).changeRuntime = false ∧
      (mkPlanItem "python3.12" none "C" (some ⟨"PYTHON3.12", []⟩)).changeRuntime
          = false) := by
  refine ⟨?_, ?_, ?_, by decide⟩
  · intro target n info a ha
    have hb : (a == "") = false := beq_eq_false_iff_ne.mpr ha
    constructor <;> simp [mkPlanItem, optTruthy, hb]
  · intro target n info
    constructor <;> simp [mkPlanItem, optTruthy]
  · intro target n arn info
    simp [mkPlanItem]

theorem C6_plan_diffing_witness :
    ("L1" : String) ≠ "" ∧
    ((mkPlanItem "python3.12" (some "L1") "A"
        (some ⟨"python3.12", ["L1"]⟩)).changeLayers
          = !((["L1"] : List String) == ["L1"]) ∧
      (mkPlanItem "python3.12" (some "L1") "A"
        (some ⟨"python3.12", ["L1"]⟩)).toLayers = some ["L1"]) :=
  ⟨by decide,
   C6_plan_diffing.1 "python3.12" "A" ⟨"python3.12", ["L1"]⟩ "L1" (by decide)⟩

theorem insertByKeyDesc_perm {α : Type} (key : α → Int) (x : α) (l : List α) :
    (insertByKeyDesc key x l).Perm (x :: l) := by
  induction l with
  | nil => exact List.Perm.refl _
  | cons y ys ih =>
    by_cases h : key y ≤ key x
    · simp [insertByKeyDesc, h]
    · simp only [insertByKeyDesc, if_neg h]
      exact (ih.cons y).trans (List.Perm.swap x y ys)

theorem sortByKeyDesc_perm {α : Type} (key : α → Int) :
    ∀ l : List α, (sortByKeyDesc key l).Perm l := by
  intro l
  induction l with
  | nil => exact List.Perm.refl _
  | cons x xs ih => exact (insertByKeyDesc_perm key x _).trans (ih.cons x)

theorem insertByKeyDesc_pairwise {α : Type} (key : α → Int) (x : α) (l : List α)
    (h : l.Pairwise (fun a b => key b ≤ key a)) :
    (insertByKeyDesc key x l).Pairwise (fun a b => key b ≤ key a) := by
  induction l with
  | nil => simp [insertByKeyDesc]
  | cons y ys ih =>
    rcases List.pairwise_cons.mp h with ⟨hy, hys⟩
    by_cases hk : key y ≤ key x
    · simp only [insertByKeyDesc, if_pos hk]
      refine List.pairwise_cons.mpr ⟨?_, h⟩
      intro b hb
      rcases List.mem_cons.mp hb with rfl | hb2
      · exact hk
      · exact le_trans (hy b hb2) hk
    · simp only [insertByKeyDesc, if_neg hk]
      refine List.pairwise_cons.mpr ⟨?_, ih hys⟩
      intro b hb
      rcases List.mem_cons.mp ((insertByKeyDesc_perm key x ys).subset hb) with rfl | hb2
      · exact le_of_lt (lt_of_not_le hk)
      · exact hy b hb2

theorem sortByKeyDesc_pairwise {α : Type} (key : α → Int) :
    ∀ l : List α, (sortByKeyDesc key l).Pairwise (fun a b => key b ≤ key a) := by
  intro l
  induction l with
  | nil => exact List.Pairwise.nil
  | cons x xs ih => exact insertByKeyDesc_pairwise key x _ ih

theorem insertByKeyDesc_filter {α : Type} (key : α → Int) (k : Int) (x : α)
    (l : List α) :
    (insertByKeyDesc key x l).filter (fun a => key a == k) =
      if (key x == k) = true then x :: l.filter (fun a => key a == k)
      else l.filter (fun a => key a == k) := by
  induction l with
  | nil =>
    by_cases hx : (key x == k) = true <;>
      simp [insertByKeyDesc, List.filter_cons, hx]
  | cons y ys ih =>
    by_cases hk : key y ≤ key x
    · simp only [insertByKeyDesc, if_pos hk]
      by_cases hx : (key x == k) = true <;>
        simp [List.filter_cons, hx]
    · simp only [insertByKeyDesc, if_neg hk]
      by_cases hx : (key x == k) = true
      · have hyk : (key y == k) = false := by
          apply beq_eq_false_iff_ne.mpr
          have h1 : key x < key y := lt_of_not_le hk
          have h2 : key x = k := beq_iff_eq.mp hx
          omega
        simp [List.filter_cons, hyk, hx, ih]
      · simp [List.filter_cons, hx, ih]

theorem sortByKeyDesc_filter {α : Type} (key : α → Int) (k : Int) :
    ∀ l : List α,
      (sortByKeyDesc key l).filter (fun a => key a == k) =
        l.filter (fun a => key a == k) := by
  intro l
  induction l with
  | nil => rfl
  | cons x xs ih =>
    simp only [sortByKeyDesc]
    rw [insertByKeyDesc_filter, List.filter_cons, ih]

/-- C8: the candidate sort orders the records by last-invocation
timestamp descending, places every record with no timestamp after all
records that have one (a genuine timestamp being positive), and is the
stable order: for every key value, the records with that key appear in
exactly the relative order of the original API response; the output is a
permutation of the input. -/
theorem C8_candidate_sort (inv : String → Option Int) (cands : List LambdaFn)
    (h : ∀ f ∈ cands, 0 < (inv f.Name).getD 1) :
    (sortCandidates inv cands).Perm cands ∧
    (sortCandidates inv cands).Pairwise
      (fun a b => invKey inv b.Name ≤ invKey inv a.Name) ∧
    (sortCandidates inv cands).Pairwise
      (fun a b => inv a.Name = none → inv b.Name = none) ∧
    (∀ k : Int,
      (sortCandidates inv cands).filter (fun f => invKey inv f.Name == k) =
        cands.filter (fun f => invKey inv f.Name == k)) := by
  have hperm := sortByKeyDesc_perm (fun f : LambdaFn => invKey inv f.Name) cands
  have hpair := sortByKeyDesc_pairwise (fun f : LambdaFn => invKey inv f.Name) cands
  refine ⟨hperm, hpair, ?_, fun k => sortByKeyDesc_filter _ k cands⟩
  refine hpair.imp_of_mem ?_
  intro a b ha hb hr hna
  cases hb2 : inv b.Name with
  | none => rfl
  | some t =>
    exfalso
    have hbc : b ∈ cands := hperm.subset hb
    have ht : 0 < t := by
      have := h b hbc
      rw [hb2] at this
      simpa using this
    have hka : invKey inv a.Name = 0 := by simp [invKey, hna]
    have hkb : invKey inv b.Name = t := by simp [invKey, hb2]
    rw [hka, hkb] at hr
    omega

theorem C8_candidate_sort_witness :
    (∀ f ∈ candsW, 0 < (invW2 f.Name).getD 1) ∧
    ((sortCandidates invW2 candsW).Perm candsW ∧
      (sortCandidates invW2 candsW).Pairwise
        (fun a b => invKey invW2 b.Name ≤ invKey invW2 a.Name) ∧
      (sortCandidates invW2 candsW).Pairwise
        (fun a b => invW2 a.Name = none → invW2 b.Name = none) ∧
      (∀ k : Int,
        (sortCandidates invW2 candsW).filter (fun f => invKey invW2 f.Name == k) =
          candsW.filter (fun f => invKey invW2 f.Name == k))) :=
  ⟨by decide, C8_candidate_sort invW2 candsW (by decide)⟩

end LalLambda
